import Mathlib

/-!
Shallow embedding of the MusicStream per-chat queue and playback session
logic (`queue_manager.py`, `music_player.py`, `bot.py`).  Chats are
independent (every Python dict is keyed by `chat_id` and no operation
touches two keys), so the state of a single chat — its queue, a
`List Track`, and its player flags — is embedded directly.
-/

/-- A resolved track, as built by `YouTubeDownloader.download_audio`:
the dict with keys `title`, `url`, `file_path`, `duration`, `uploader`.
Queue operations compare only `title` and `url`. -/
structure Track where
  title : String
  url : String
  file_path : String
  duration : Nat
  uploader : String
deriving DecidableEq, Repr

/-- `Config.MAX_QUEUE_SIZE` (default value of the environment variable). -/
def MAX_QUEUE_SIZE : Nat := 20

/-- The identity test used by `QueueManager.remove_from_queue`:
`song['title'] == song_info['title'] and song['url'] == song_info['url']`. -/
def matchesSong (song songInfo : Track) : Bool :=
  song.title == songInfo.title && song.url == songInfo.url

/-- `QueueManager.add_to_queue`: rejects with `-1` when
`len(queue) >= MAX_QUEUE_SIZE`, otherwise appends and returns the new
length as the 1-based position. -/
def add_to_queue (q : List Track) (songInfo : Track) : List Track × Int :=
  if q.length ≥ MAX_QUEUE_SIZE then (q, -1)
  else (q ++ [songInfo], (q.length : Int) + 1)

/-- `QueueManager.remove_from_queue`: removes the first element whose
`title` and `url` both match, returning whether a match was found. -/
def remove_from_queue : List Track → Track → List Track × Bool
  | [], _ => ([], false)
  | song :: rest, songInfo =>
    if matchesSong song songInfo then (rest, true)
    else
      let r := remove_from_queue rest songInfo
      (song :: r.1, r.2)

/-- `QueueManager.get_current_song`: the head of the queue, if any. -/
def get_current_song (q : List Track) : Option Track :=
  q.head?

/-- `QueueManager.move_song`: validates the 1-based positions against
`0 <= pos-1 < len(queue)`, then `song = queue.pop(from_idx)` followed by
`queue.insert(to_idx, song)`. -/
def move_song (q : List Track) (fromPos toPos : Int) : List Track × Bool :=
  if h : 0 ≤ fromPos - 1 ∧ fromPos - 1 < (q.length : Int) ∧
         0 ≤ toPos - 1 ∧ toPos - 1 < (q.length : Int) then
    have hf : (fromPos - 1).toNat < q.length := by omega
    ((q.eraseIdx (fromPos - 1).toNat).insertIdx (toPos - 1).toNat
       (q.get ⟨(fromPos - 1).toNat, hf⟩), true)
  else (q, false)

/-- `QueueManager.shuffle_queue`: no-op returning `False` when
`len(queue) <= 1`; with `preserve_current` the head is kept and only the
tail is shuffled, otherwise the whole list is shuffled.  The call to
`random.shuffle` is embedded as an explicit permutation-producing
function `shuf`. -/
def shuffle_queue (q : List Track) (preserveCurrent : Bool)
    (shuf : List Track → List Track) : List Track × Bool :=
  if q.length ≤ 1 then (q, false)
  else
    match q, preserveCurrent with
    | cur :: rest, true => (cur :: shuf rest, true)
    | _, _ => (shuf q, true)

/-- Per-chat state of `MusicPlayer`: `active` is `chat_id in
self.active_streams`, `pausedEntry` is the entry (if any) of
`self.paused_streams` for this chat. -/
structure PlayerState where
  active : Bool
  pausedEntry : Option Bool
deriving DecidableEq, Repr

/-- `MusicPlayer.stop_audio`: deletes the chat's entries when active
(also the paused entry), and always reports `True`. -/
def stop_audio (s : PlayerState) : PlayerState × Bool :=
  if s.active then (⟨false, none⟩, true) else (s, true)

/-- `MusicPlayer.play_audio`: fails (state untouched) when the audio
file does not exist; otherwise stops any existing playback for the chat
and records an active, non-paused stream.  `fileExists` stands for the
`os.path.exists(file_path)` check. -/
def play_audio (s : PlayerState) (fileExists : Bool) : PlayerState × Bool :=
  if !fileExists then (s, false)
  else
    let s1 := if s.active then (stop_audio s).1 else s
    ({ s1 with active := true, pausedEntry := some false }, true)

/-- `MusicPlayer.pause_audio`: fails when the chat has no active stream
or is already paused; otherwise sets the paused flag. -/
def pause_audio (s : PlayerState) : PlayerState × Bool :=
  if !s.active || s.pausedEntry.getD false then (s, false)
  else ({ s with pausedEntry := some true }, true)

/-- `MusicPlayer.resume_audio`: fails when the chat has no active stream
or is not paused; otherwise clears the paused flag. -/
def resume_audio (s : PlayerState) : PlayerState × Bool :=
  if !s.active || !(s.pausedEntry.getD false) then (s, false)
  else ({ s with pausedEntry := some false }, true)

/-- `MusicPlayer.is_playing`:
`chat_id in self.active_streams and not self.paused_streams.get(chat_id, False)`. -/
def is_playing (s : PlayerState) : Bool :=
  s.active && !(s.pausedEntry.getD false)

/-- `MusicPlayer.is_paused`:
`chat_id in self.active_streams and self.paused_streams.get(chat_id, False)`. -/
def is_paused (s : PlayerState) : Bool :=
  s.active && s.pausedEntry.getD false

/-- Reply sent by the `/play` handler (after the queue step). -/
inductive PlayReply where
  | nowPlaying (title : String)
  | playFailed
  | addedToQueue (pos : Int) (title : String)
deriving DecidableEq, Repr

/-- Result of one `/play` command: final queue, final player state, the
position returned by `add_to_queue`, how many times
`music_player.play_audio` was invoked, and the reply. -/
structure PlayOutcome where
  queue : List Track
  player : PlayerState
  pos : Int
  starts : Nat
  reply : PlayReply
deriving DecidableEq, Repr

/-- `play_command` in `bot.py` after a successful search: add the result
to the queue; if the returned position is `1` start playback, rolling
the track back out of the queue when `play_audio` fails; otherwise only
report the queue position. -/
def play_command (q : List Track) (p : PlayerState) (result : Track)
    (fileExists : Bool) : PlayOutcome :=
  let r := add_to_queue q result
  if r.2 == 1 then
    let pr := play_audio p fileExists
    if pr.2 then ⟨r.1, pr.1, r.2, 1, .nowPlaying result.title⟩
    else ⟨(remove_from_queue r.1 result).1, pr.1, r.2, 1, .playFailed⟩
  else ⟨r.1, p, r.2, 0, .addedToQueue r.2 result.title⟩

/-- Reply sent by the `/skip` handler. -/
inductive SkipReply where
  | noSong
  | skippedNowPlaying (title : String)
  | skippedQueueEmpty
deriving DecidableEq, Repr

/-- Which backend operation the `/skip` handler invoked. -/
inductive BackendCall where
  | noCall
  | start (path : String)
  | stop
deriving DecidableEq, Repr

/-- Result of one `/skip` command. -/
structure SkipOutcome where
  queue : List Track
  player : PlayerState
  backend : BackendCall
  reply : SkipReply
deriving DecidableEq, Repr

/-- `skip_command` in `bot.py`: reject when there is no current song;
otherwise remove the current song, then start the new head if one
exists, else stop the player. -/
def skip_command (q : List Track) (p : PlayerState) (fileExists : Bool) :
    SkipOutcome :=
  match get_current_song q with
  | none => ⟨q, p, .noCall, .noSong⟩
  | some cur =>
    let q1 := (remove_from_queue q cur).1
    match get_current_song q1 with
    | some next =>
      ⟨q1, (play_audio p fileExists).1, .start next.file_path,
        .skippedNowPlaying next.title⟩
    | none => ⟨q1, (stop_audio p).1, .stop, .skippedQueueEmpty⟩

/-- `MusicBot._handle_song_finished`: remove the current song (if any),
then start the new head if one exists, else stop the player.  The code
performs no check of the paused flag. -/
def handle_song_finished (q : List Track) (p : PlayerState)
    (fileExists : Bool) : List Track × PlayerState :=
  let q1 :=
    match get_current_song q with
    | some cur => (remove_from_queue q cur).1
    | none => q
  match get_current_song q1 with
  | some _ => (q1, (play_audio p fileExists).1)
  | none => (q1, (stop_audio p).1)

/-- Number of queue entries matching a track's identity. -/
def matchCount (q : List Track) (songInfo : Track) : Nat :=
  (q.filter (fun s => matchesSong s songInfo)).length

/-- Concrete track used for witnesses and counterexamples. -/
def trackA : Track :=
  ⟨"Song A", "https://youtu.be/aaa", "./downloads/a.mp3", 180, "Ch A"⟩

/-- A second concrete track with a different identity. -/
def trackB : Track :=
  ⟨"Song B", "https://youtu.be/bbb", "./downloads/b.mp3", 200, "Ch B"⟩

/-- A third concrete track with a different identity. -/
def trackC : Track :=
  ⟨"Song C", "https://youtu.be/ccc", "./downloads/c.mp3", 90, "Ch C"⟩

-- Basic sanity lemmas shared by several claim proofs.

/-- Removing a track from a queue whose head already matches it pops
exactly the head. -/
theorem remove_from_queue_cons_self (t : Track) (rest : List Track) :
    remove_from_queue (t :: rest) t = (rest, true) := by
  simp [remove_from_queue, matchesSong]

/-- `add_to_queue` on a non-full queue appends and returns the new
length. -/
theorem add_to_queue_lt (q : List Track) (t : Track)
    (h : q.length < MAX_QUEUE_SIZE) :
    add_to_queue q t = (q ++ [t], (q.length : Int) + 1) := by
  unfold add_to_queue
  rw [if_neg (by omega)]

/-- `add_to_queue` on a full (or over-full) queue rejects with `-1`. -/
theorem add_to_queue_ge (q : List Track) (t : Track)
    (h : MAX_QUEUE_SIZE ≤ q.length) :
    add_to_queue q t = (q, -1) := by
  unfold add_to_queue
  rw [if_pos (by omega)]

/-- Claim C9: a successful enqueue appends, returns the 1-based position
equal to the new queue length (old length + 1), keeps every previously
queued track at its position, and the full rejection is the return value
`-1`. -/
theorem add_to_queue_position_spec (q : List Track) (t : Track) :
    (q.length < MAX_QUEUE_SIZE →
      (add_to_queue q t).1 = q ++ [t] ∧
      (add_to_queue q t).2 = ((add_to_queue q t).1.length : Int) ∧
      (add_to_queue q t).1.length = q.length + 1 ∧
      (add_to_queue q t).1.take q.length = q) ∧
    (MAX_QUEUE_SIZE ≤ q.length → add_to_queue q t = (q, -1)) := by
  constructor
  · intro hlt
    rw [add_to_queue_lt q t hlt]
    refine ⟨rfl, ?_, ?_, ?_⟩ <;> simp
  · intro hge
    exact add_to_queue_ge q t hge

/-- Witness for `add_to_queue_position_spec` at the empty queue. -/
theorem add_to_queue_position_spec_witness :
    (add_to_queue [] trackA).1 = [trackA] ∧ (add_to_queue [] trackA).2 = 1 := by
  have h := (add_to_queue_position_spec [] trackA).1 (by decide)
  exact ⟨h.1, by rw [h.2.1, h.1]; rfl⟩

/-- Claim C4: under the invariant that the queue never exceeds
`MAX_QUEUE_SIZE`, an enqueue is rejected (returning `-1` and leaving the
queue unchanged) exactly when the queue already holds `MAX_QUEUE_SIZE`
tracks; an enqueue that brings the length to exactly `MAX_QUEUE_SIZE`
succeeds; and the resulting length never exceeds `MAX_QUEUE_SIZE`. -/
theorem add_to_queue_full_boundary (q : List Track) (t : Track)
    (hinv : q.length ≤ MAX_QUEUE_SIZE) :
    (((add_to_queue q t).2 = -1 ∧ (add_to_queue q t).1 = q) ↔
       q.length = MAX_QUEUE_SIZE) ∧
    (q.length + 1 = MAX_QUEUE_SIZE →
       (add_to_queue q t).1 = q ++ [t] ∧
       (add_to_queue q t).2 = ((q.length : Int) + 1) ∧
       (add_to_queue q t).1.length = MAX_QUEUE_SIZE) ∧
    (add_to_queue q t).1.length ≤ MAX_QUEUE_SIZE := by
  refine ⟨?_, ?_, ?_⟩
  · constructor
    · intro h
      by_contra hne
      have hlt : q.length < MAX_QUEUE_SIZE := by omega
      rw [add_to_queue_lt q t hlt] at h
      have := h.1
      simp at this
      omega
    · intro h
      rw [add_to_queue_ge q t (by omega)]
      exact ⟨rfl, rfl⟩
  · intro h
    rw [add_to_queue_lt q t (by omega)]
    refine ⟨rfl, rfl, ?_⟩
    simp; omega
  · by_cases hge : MAX_QUEUE_SIZE ≤ q.length
    · rw [add_to_queue_ge q t hge]; exact hinv
    · rw [add_to_queue_lt q t (by omega)]
      simp; omega

/-- Witness for `add_to_queue_full_boundary`: a queue of 19 tracks
accepts one more (reaching exactly 20), and a queue of 20 rejects. -/
theorem add_to_queue_full_boundary_witness :
    (add_to_queue (List.replicate 19 trackA) trackB).1.length =
      MAX_QUEUE_SIZE ∧
    (add_to_queue (List.replicate 20 trackA) trackB).2 = -1 := by
  refine ⟨((add_to_queue_full_boundary (List.replicate 19 trackA) trackB
    (by decide)).2.1 (by decide)).2.2, ?_⟩
  exact ((add_to_queue_full_boundary (List.replicate 20 trackA) trackB
    (by decide)).1.mpr (by decide)).1

/-- Claim C10: `is_playing` and `is_paused` are never both true; a chat
is playing exactly when it has an active stream with the paused flag
clear, paused exactly when it has an active stream with the paused flag
set, and a chat with no active stream is neither. -/
theorem is_playing_is_paused_exclusive (s : PlayerState) :
    (¬ (is_playing s = true ∧ is_paused s = true)) ∧
    (is_playing s = true ↔
       s.active = true ∧ s.pausedEntry.getD false = false) ∧
    (is_paused s = true ↔
       s.active = true ∧ s.pausedEntry.getD false = true) ∧
    (s.active = false → is_playing s = false ∧ is_paused s = false) := by
  cases s with
  | mk active pausedEntry =>
    cases active <;> cases hp : pausedEntry.getD false <;>
      simp [is_playing, is_paused, hp]

/-- Witness for `is_playing_is_paused_exclusive` at an active, paused
state. -/
theorem is_playing_is_paused_exclusive_witness :
    is_paused ⟨true, some true⟩ = true ∧
    is_playing ⟨true, some true⟩ = false := by
  refine ⟨(is_playing_is_paused_exclusive ⟨true, some true⟩).2.2.1.mpr
    ⟨rfl, rfl⟩, ?_⟩
  have h := (is_playing_is_paused_exclusive ⟨true, some true⟩).1
  cases hpl : is_playing (⟨true, some true⟩ : PlayerState)
  · rfl
  · exact absurd ⟨hpl, (is_playing_is_paused_exclusive
      ⟨true, some true⟩).2.2.1.mpr ⟨rfl, rfl⟩⟩ h

/-- Claim C3: when an enqueue lands at position 1 (the queue was empty)
and the backend start fails, the just-enqueued track is rolled back out
of the queue (back to empty), the player state is completely unchanged
(so an idle session stays idle), and the caller is told playback
failed. -/
theorem play_command_start_failure_rollback (p : PlayerState) (t : Track) :
    (play_command [] p t false).pos = 1 ∧
    (play_command [] p t false).queue = [] ∧
    (play_command [] p t false).player = p ∧
    (play_command [] p t false).reply = .playFailed := by
  have hrm := remove_from_queue_cons_self t []
  simp [play_command, add_to_queue, play_audio, MAX_QUEUE_SIZE, hrm]

/-- `play_audio` with the file present always records an active,
non-paused stream and reports success. -/
theorem play_audio_true (p : PlayerState) :
    play_audio p true = (⟨true, some false⟩, true) := rfl

/-- `stop_audio` always leaves the chat without an active stream. -/
theorem stop_audio_active (p : PlayerState) :
    (stop_audio p).1.active = false := by
  cases hp : p.active <;> simp [stop_audio, hp]

/-- Claim C1 (amended): enqueueing into an empty queue returns position
1 and triggers exactly one backend start, reaching the playing state
when the start succeeds; an enqueue into a non-empty queue never
invokes the backend and leaves the player untouched, returning position
`length + 1 > 1` and appending when the queue is not full, and
returning `-1` with the queue unchanged when it is full. -/
theorem play_command_enqueue_start_spec (q : List Track) (p : PlayerState)
    (t : Track) (ok : Bool) :
    (q = [] →
      (play_command q p t ok).pos = 1 ∧
      (play_command q p t ok).starts = 1 ∧
      (ok = true →
        (play_command q p t ok).queue = [t] ∧
        is_playing (play_command q p t ok).player = true)) ∧
    (q ≠ [] →
      (play_command q p t ok).starts = 0 ∧
      (play_command q p t ok).player = p ∧
      (q.length < MAX_QUEUE_SIZE →
        (play_command q p t ok).queue = q ++ [t] ∧
        (play_command q p t ok).pos = (q.length : Int) + 1 ∧
        1 < (play_command q p t ok).pos) ∧
      (MAX_QUEUE_SIZE ≤ q.length →
        (play_command q p t ok).queue = q ∧
        (play_command q p t ok).pos = -1)) := by
  constructor
  · rintro rfl
    cases ok with
    | true => exact ⟨rfl, rfl, fun _ => ⟨rfl, rfl⟩⟩
    | false => exact ⟨rfl, rfl, fun h => absurd h (by decide)⟩
  · intro hne
    have hlen : 1 ≤ q.length := List.length_pos.mpr hne
    by_cases hlt : q.length < MAX_QUEUE_SIZE
    · have hadd := add_to_queue_lt q t hlt
      have hcond : ((((q.length : Int)) + 1) == 1) = false := by
        simp only [beq_eq_false_iff_ne, ne_eq]
        omega
      refine ⟨?_, ?_, fun _ => ⟨?_, ?_, ?_⟩,
        fun hge => absurd hge (by omega)⟩ <;>
        simp [play_command, hadd, hcond]
      omega
    · have hadd := add_to_queue_ge q t (by omega)
      have hcond : ((-1 : Int) == 1) = false := by decide
      refine ⟨?_, ?_, fun hlt2 => absurd hlt2 hlt, fun _ => ⟨?_, ?_⟩⟩ <;>
        simp [play_command, hadd, hcond]

/-- Witness for `play_command_enqueue_start_spec`: a first enqueue on an
empty queue starts playback at position 1; an enqueue on a one-element
queue triggers no start. -/
theorem play_command_enqueue_start_spec_witness :
    (play_command [] ⟨false, none⟩ trackA true).pos = 1 ∧
    is_playing (play_command [] ⟨false, none⟩ trackA true).player = true ∧
    (play_command [trackA] ⟨true, some false⟩ trackB true).starts = 0 := by
  refine ⟨((play_command_enqueue_start_spec [] ⟨false, none⟩ trackA true).1
    rfl).1, ?_, ?_⟩
  · exact (((play_command_enqueue_start_spec [] ⟨false, none⟩ trackA true).1
      rfl).2.2 rfl).2
  · exact ((play_command_enqueue_start_spec [trackA] ⟨true, some false⟩
      trackB true).2 (by decide)).1

/-- Counterexample to claim C1 as stated: an enqueue on a full
(hence non-empty) queue of `MAX_QUEUE_SIZE` tracks returns `-1`, which
is not a position greater than 1, and appends nothing. -/
theorem play_command_full_pos_counterexample :
    (List.replicate 20 trackA : List Track) ≠ [] ∧
    (play_command (List.replicate 20 trackA) ⟨true, some false⟩
      trackB true).pos = -1 ∧
    ¬ 1 < (play_command (List.replicate 20 trackA) ⟨true, some false⟩
      trackB true).pos ∧
    (play_command (List.replicate 20 trackA) ⟨true, some false⟩
      trackB true).queue = List.replicate 20 trackA := by
  refine ⟨by decide, rfl, by decide, rfl⟩

/-- Claim C2: `/skip` on an empty queue is rejected with no state
change; on a non-empty queue it removes the head by exact identity and
then either starts the backend on the new head's media path (reaching
the playing state when the start succeeds) or stops the backend,
leaving no active stream. -/
theorem skip_command_spec (q : List Track) (p : PlayerState) (ok : Bool) :
    (q = [] → skip_command q p ok = ⟨q, p, .noCall, .noSong⟩) ∧
    (∀ t rest, q = t :: rest →
      (skip_command q p ok).queue = rest ∧
      (rest = [] →
        (skip_command q p ok).backend = .stop ∧
        (skip_command q p ok).player.active = false) ∧
      (∀ u rest2, rest = u :: rest2 →
        (skip_command q p ok).backend = .start u.file_path ∧
        (ok = true →
          is_playing (skip_command q p ok).player = true))) := by
  constructor
  · rintro rfl
    rfl
  · rintro t rest rfl
    have hrm := remove_from_queue_cons_self t rest
    cases rest with
    | nil =>
      refine ⟨?_, fun _ => ⟨?_, ?_⟩, fun u rest2 h => nomatch h⟩ <;>
        simp [skip_command, get_current_song, hrm, stop_audio_active]
    | cons u rest2 =>
      refine ⟨?_, ⟨fun h => absurd h (List.cons_ne_nil u rest2),
        fun u' rest2' h => ?_⟩⟩
      · simp [skip_command, get_current_song, hrm]
      · injection h with h1 h2
        subst h1; subst h2
        constructor
        · simp [skip_command, get_current_song, hrm]
        · rintro rfl
          simp [skip_command, get_current_song, hrm, play_audio_true,
            is_playing]

/-- Witness for `skip_command_spec`: skipping `[trackA, trackB]` leaves
`[trackB]`, starts the backend on trackB's path and is playing. -/
theorem skip_command_spec_witness :
    (skip_command [trackA, trackB] ⟨true, some false⟩ true).queue =
      [trackB] ∧
    (skip_command [trackA, trackB] ⟨true, some false⟩ true).backend =
      .start trackB.file_path ∧
    is_playing (skip_command [trackA, trackB] ⟨true, some false⟩
      true).player = true := by
  have h := (skip_command_spec [trackA, trackB] ⟨true, some false⟩
    true).2 trackA [trackB] rfl
  exact ⟨h.1, (h.2.2 trackB [] rfl).1, (h.2.2 trackB [] rfl).2 rfl⟩

/-- Claim C5 (code divergence): with the session paused
(active stream, paused flag set), handling a finished event for the
current track is not ignored: `_handle_song_finished` removes the head
from the queue and, the queue then being empty, stops the player,
clearing both flags. -/
theorem handle_song_finished_mutates_while_paused :
    is_paused ⟨true, some true⟩ = true ∧
    handle_song_finished [trackA] ⟨true, some true⟩ true =
      ([], ⟨false, none⟩) := by
  decide

/-- Claim C6 (amended): when the queue holds at most one element whose
(title, url) identity matches the removed track, reading the current
song after `remove_from_queue` never yields a track matching that
identity. -/
theorem remove_exact_then_current_spec (q : List Track) (t : Track)
    (hdup : matchCount q t ≤ 1) :
    ∀ u, get_current_song (remove_from_queue q t).1 = some u →
      matchesSong u t = false := by
  cases q with
  | nil =>
    intro u hu
    simp [remove_from_queue, get_current_song] at hu
  | cons s rest =>
    intro u hu
    by_cases hm : matchesSong s t
    · have hres : (remove_from_queue (s :: rest) t).1 = rest := by
        simp [remove_from_queue, hm]
      rw [hres] at hu
      have hall : ∀ x ∈ rest, ¬ (matchesSong x t = true) := by
        rw [← List.filter_eq_nil_iff]
        have h1 : ((s :: rest).filter (fun x => matchesSong x t)).length =
            (rest.filter (fun x => matchesSong x t)).length + 1 := by
          simp [List.filter_cons, hm]
        have h2 : ((s :: rest).filter
            (fun x => matchesSong x t)).length ≤ 1 := hdup
        have h3 : (rest.filter (fun x => matchesSong x t)).length = 0 := by
          omega
        exact List.length_eq_zero.mp h3
      have hmem : u ∈ rest := by
        cases rest with
        | nil => simp [get_current_song] at hu
        | cons v vs =>
          simp [get_current_song] at hu
          exact hu ▸ List.mem_cons_self v vs
      simpa using hall u hmem
    · have hres : (remove_from_queue (s :: rest) t).1 =
          s :: (remove_from_queue rest t).1 := by
        simp [remove_from_queue, hm]
      rw [hres] at hu
      simp [get_current_song] at hu
      rw [← hu]
      simpa using hm

/-- Witness for `remove_exact_then_current_spec`: removing trackA from
`[trackA, trackB]` leaves trackB current, which does not match
trackA. -/
theorem remove_exact_then_current_spec_witness :
    matchesSong trackB trackA = false :=
  remove_exact_then_current_spec [trackA, trackB] trackA (by decide)
    trackB (by decide)

/-- Counterexample to claim C6 as stated: with a duplicate identity in
the queue, removal of the head leaves an equal track current, so
`get_current_song` returns exactly the removed track. -/
theorem remove_exact_then_current_duplicate_counterexample :
    (remove_from_queue [trackA, trackA] trackA).2 = true ∧
    get_current_song (remove_from_queue [trackA, trackA] trackA).1 =
      some trackA := by
  decide

/-- Claim C7: `shuffle_queue` with `preserve_current` is a no-op
returning `false` when the queue has at most one element; on a longer
queue it reports a change, keeps the head fixed, and replaces the tail
with a permutation of itself (whenever the underlying shuffle produces
a permutation, as `random.shuffle` does). -/
theorem shuffle_queue_spec (q : List Track)
    (shuf : List Track → List Track)
    (hperm : (shuf (q.drop 1)).Perm (q.drop 1)) :
    (q.length ≤ 1 → shuffle_queue q true shuf = (q, false)) ∧
    (2 ≤ q.length →
      (shuffle_queue q true shuf).2 = true ∧
      (shuffle_queue q true shuf).1.head? = q.head? ∧
      ((shuffle_queue q true shuf).1.drop 1).Perm (q.drop 1)) := by
  constructor
  · intro h
    simp [shuffle_queue, h]
  · intro h
    cases q with
    | nil => simp at h
    | cons cur rest =>
      have hne : rest ≠ [] := by
        intro hrest
        subst hrest
        simp at h
      have hs : shuffle_queue (cur :: rest) true shuf =
          (cur :: shuf rest, true) := by
        simp [shuffle_queue, hne]
      rw [hs]
      refine ⟨rfl, rfl, ?_⟩
      simpa using hperm

/-- Witness for `shuffle_queue_spec`: a singleton queue is untouched,
and a three-element queue keeps its head. -/
theorem shuffle_queue_spec_witness :
    shuffle_queue [trackA] true (fun l => l) = ([trackA], false) ∧
    (shuffle_queue [trackA, trackB, trackC] true
      (fun l => l)).1.head? = some trackA := by
  constructor
  · exact (shuffle_queue_spec [trackA] (fun l => l)
      (List.Perm.refl _)).1 (by decide)
  · exact (((shuffle_queue_spec [trackA, trackB, trackC] (fun l => l)
      (List.Perm.refl _)).2 (by decide)).2.1).trans rfl

/-- `move_song` with both 1-based positions in range pops the source
index and re-inserts the element at the target index. -/
theorem move_song_valid (q : List Track) (a b : Int)
    (ha1 : 1 ≤ a) (ha2 : a ≤ (q.length : Int))
    (hb1 : 1 ≤ b) (hb2 : b ≤ (q.length : Int))
    (hi : (a - 1).toNat < q.length) :
    move_song q a b =
      ((q.eraseIdx (a - 1).toNat).insertIdx (b - 1).toNat
        (q.get ⟨(a - 1).toNat, hi⟩), true) := by
  unfold move_song
  rw [dif_pos ⟨by omega, by omega, by omega, by omega⟩]

/-- Erasing an index and re-inserting the erased element there restores
the list. -/
theorem insertIdx_getElem_eraseIdx :
    ∀ (l : List Track) (i : Nat) (h : i < l.length),
      (l.eraseIdx i).insertIdx i (l.get ⟨i, h⟩) = l
  | _ :: _, 0, _ => rfl
  | a :: l, i + 1, h =>
    congrArg (a :: ·)
      (insertIdx_getElem_eraseIdx l i (Nat.lt_of_succ_lt_succ h))

/-- Claim C8: for 1-based positions `a ≠ b` both within the queue,
`move_song a b` followed by `move_song b a` restores the original
queue order. -/
theorem move_song_round_trip (q : List Track) (a b : Int)
    (ha1 : 1 ≤ a) (ha2 : a ≤ (q.length : Int))
    (hb1 : 1 ≤ b) (hb2 : b ≤ (q.length : Int)) (_hab : a ≠ b) :
    (move_song (move_song q a b).1 b a).1 = q := by
  have hi : (a - 1).toNat < q.length := by omega
  have hj : (b - 1).toNat < q.length := by omega
  have hm1 := move_song_valid q a b ha1 ha2 hb1 hb2 hi
  have hm1' : (move_song q a b).1 =
      (q.eraseIdx (a - 1).toNat).insertIdx (b - 1).toNat
        (q.get ⟨(a - 1).toNat, hi⟩) := by
    rw [hm1]
  have hjle : (b - 1).toNat ≤ (q.eraseIdx (a - 1).toNat).length := by
    have := List.length_eraseIdx_add_one hi
    omega
  have hlen1 : (move_song q a b).1.length = q.length := by
    rw [hm1']
    rw [List.length_insertIdx _ _ hjle]
    have := List.length_eraseIdx_add_one hi
    omega
  have hj2 : (b - 1).toNat < (move_song q a b).1.length := by
    rw [hlen1]
    exact hj
  have hm2 := move_song_valid (move_song q a b).1 b a hb1
    (by rw [hlen1]; exact hb2) ha1 (by rw [hlen1]; exact ha2) hj2
  have hgv : (move_song q a b).1.get ⟨(b - 1).toNat, hj2⟩ =
      q.get ⟨(a - 1).toNat, hi⟩ := by
    have he := List.get_of_eq hm1' ⟨(b - 1).toNat, hj2⟩
    rw [he, List.get_eq_getElem]
    exact List.getElem_insertIdx_self _ _ _ hjle
  calc (move_song (move_song q a b).1 b a).1
      = ((move_song q a b).1.eraseIdx (b - 1).toNat).insertIdx
          ((a - 1).toNat) ((move_song q a b).1.get ⟨(b - 1).toNat, hj2⟩) := by
        rw [hm2]
    _ = ((move_song q a b).1.eraseIdx (b - 1).toNat).insertIdx
          ((a - 1).toNat) (q.get ⟨(a - 1).toNat, hi⟩) := by
        rw [hgv]
    _ = (((q.eraseIdx (a - 1).toNat).insertIdx (b - 1).toNat
          (q.get ⟨(a - 1).toNat, hi⟩)).eraseIdx (b - 1).toNat).insertIdx
          ((a - 1).toNat) (q.get ⟨(a - 1).toNat, hi⟩) := by
        rw [hm1']
    _ = (q.eraseIdx (a - 1).toNat).insertIdx ((a - 1).toNat)
          (q.get ⟨(a - 1).toNat, hi⟩) := by
        rw [List.eraseIdx_insertIdx]
    _ = q := insertIdx_getElem_eraseIdx q ((a - 1).toNat) hi

/-- Witness for `move_song_round_trip`: moving position 1 to 3 and back
on a three-track queue restores the original order. -/
theorem move_song_round_trip_witness :
    (move_song (move_song [trackA, trackB, trackC] 1 3).1 3 1).1 =
      [trackA, trackB, trackC] :=
  move_song_round_trip [trackA, trackB, trackC] 1 3 (by decide)
    (by decide) (by decide) (by decide) (by decide)
